import Mathlib

/-!
Verification of the AWS news tracker serving/caching/rate-limiting path.

Shallow embedding conventions:
* JS strings are Lean `String` (ASCII operations; `toLowerCase` is modelled on
  ASCII letters, which covers every keyword and input considered here).
* The URL `link` is modelled as its UTF-8 byte list (`List Nat`, each < 256),
  since the identifier derivation (`Buffer.from(link).toString('base64')`)
  operates on bytes.
* Wall-clock instants and durations are epoch milliseconds (`Int`).  The code
  stores `timestamp` as an ISO-8601 string produced by `toISOString` and later
  compares via `new Date(ts)`; that round trip is an order-preserving
  injection on valid dates, so timestamps are carried as the underlying
  millisecond value.
* The resolved outcome of `await fetchAllAnnouncements()` inside the request
  handler (success list, upstream error, or the 25-second `Promise.race`
  timeout rejection) is passed to the handler as an `Except String` oracle.
-/

namespace AwsNews

/-- ASCII lower-casing of one character, matching `String.prototype.toLowerCase`
on ASCII input. -/
def asciiToLower (c : Char) : Char :=
  if 'A' ≤ c ∧ c ≤ 'Z' then Char.ofNat (c.toNat + 32) else c

/-- Lower-cased character list of a string. -/
def lowerData (s : String) : List Char :=
  s.data.map asciiToLower

/-- `hay.includes(needle)` on character lists (JS substring containment). -/
def containsSubstr (hay needle : List Char) : Bool :=
  needle.isPrefixOf hay ||
    match hay with
    | [] => false
    | _ :: t => containsSubstr t needle

/-- `CATEGORY_KEYWORDS` from `lib/utils.js`, in `Object.entries` insertion
order. -/
def CATEGORY_KEYWORDS : List (String × List String) :=
  [("AI_ML", ["machine learning", "ml", "ai", "artificial intelligence",
      "bedrock", "sagemaker", "comprehend", "rekognition", "textract",
      "generative ai", "gen ai", "foundation model"]),
   ("COMPUTE", ["ec2", "lambda", "fargate", "batch", "compute", "instance",
      "graviton", "elastic compute"]),
   ("STORAGE", ["s3", "ebs", "efs", "fsx", "storage", "backup", "glacier"]),
   ("DATABASE", ["rds", "dynamodb", "aurora", "redshift", "neptune",
      "documentdb", "timestream", "database", "elasticache", "memorydb"]),
   ("ANALYTICS", ["analytics", "athena", "emr", "kinesis", "quicksight",
      "glue", "data lake", "msk", "kafka"]),
   ("SECURITY", ["security", "iam", "cognito", "secrets manager", "kms",
      "waf", "shield", "guardduty", "inspector", "macie", "detective"]),
   ("NETWORKING", ["vpc", "cloudfront", "route 53", "direct connect",
      "transit gateway", "network", "api gateway", "app mesh", "cloud map"]),
   ("DEVTOOLS", ["codecommit", "codebuild", "codedeploy", "codepipeline",
      "codeartifact", "cloud9", "x-ray", "developer", "devops"]),
   ("CONTAINERS", ["ecs", "eks", "ecr", "container", "kubernetes", "docker",
      "app runner"]),
   ("SERVERLESS", ["lambda", "serverless", "step functions", "eventbridge",
      "sns", "sqs", "api gateway"])]

/-- Does one `(category, keywords)` pair match the text?  `lib/utils.js` tests
`lowerText.includes(keyword)` for each keyword. -/
def catMatches (text : String) (p : String × List String) : Bool :=
  p.2.any (fun kw => containsSubstr (lowerData text) kw.data)

/-- First category of the ordered pair list whose keyword list matches,
`"OTHER"` when none does. -/
def findCategory (l : List (String × List String)) (text : String) : String :=
  match l.find? (catMatches text) with
  | some p => p.1
  | none => "OTHER"

/-- `categorizeAnnouncement` from `lib/utils.js` (substring matching over the
fixed ordered category list). -/
def categorizeAnnouncement (text : String) : String :=
  findCategory CATEGORY_KEYWORDS text

/-- Whether the named category's keyword list matches the text, looked up in a
given ordered pair list. -/
def matchesIn (l : List (String × List String)) (text cat : String) : Bool :=
  match l.find? (fun p => p.1 = cat) with
  | some p => catMatches text p
  | none => false

/-- `matchesIn` on the utils.js category table. -/
def matchesCat (text cat : String) : Bool :=
  matchesIn CATEGORY_KEYWORDS text cat

/-- Position of the first pair carrying the given category name. -/
def nameIdx (a : String) : List (String × List String) → Option Nat
  | [] => none
  | h :: t => if h.1 = a then some 0 else (nameIdx a t).map (· + 1)

/-- `A` occurs strictly before `B` in the ordered pair list. -/
def precedesIn (l : List (String × List String)) (a b : String) : Bool :=
  match nameIdx a l, nameIdx b l with
  | some i, some j => decide (i < j)
  | _, _ => false

/-- `precedesIn` on the utils.js category table. -/
def precedes (a b : String) : Bool :=
  precedesIn CATEGORY_KEYWORDS a b

/-- The standard base64 alphabet. -/
def b64char (n : Nat) : Char :=
  "ABCDEFGHIJKLMNOPQRSTUVWXYZabcdefghijklmnopqrstuvwxyz0123456789+/".data.getD n 'A'

/-- Base64 encoding of a byte list with padding, as produced by
`Buffer.toString('base64')`. -/
def b64encode : List Nat → List Char
  | [] => []
  | [b1] =>
      [b64char (b1 / 4), b64char (b1 % 4 * 16), '=', '=']
  | [b1, b2] =>
      [b64char (b1 / 4), b64char (b1 % 4 * 16 + b2 / 16), b64char (b2 % 16 * 4), '=']
  | b1 :: b2 :: b3 :: rest =>
      b64char (b1 / 4) :: b64char (b1 % 4 * 16 + b2 / 16) ::
      b64char (b2 % 16 * 4 + b3 / 64) :: b64char (b3 % 64) :: b64encode rest

/-- A raw feed item as assembled by `fetchRSSFeed` plus the source tag added in
`fetchAllAnnouncementsInternal` (`{...item, sourceName}`).  `pubDateMs` is the
publish instant in epoch milliseconds (the value of `new Date(item.pubDate)`),
`link` the UTF-8 bytes of the URL. -/
structure RawItem where
  title : String
  link : List Nat
  pubDateMs : Int
  content : String
  sourceName : String
deriving DecidableEq, Repr

/-- The normalized announcement entity built by `processAnnouncement`.
`timestamp` carries the epoch milliseconds underlying the ISO string. -/
structure Ann where
  id : List Char
  title : String
  category : String
  timestamp : Int
  summary : String
  fullText : String
  link : List Nat
  source : String
  isNew : Bool
deriving DecidableEq, Repr

/-- `generateSummary` from `lib/utils.js`: the emergency path always truncates
to the first 200 characters plus a marker (JS `substring` keeps the whole
string when shorter). -/
def generateSummary (content : String) : String :=
  String.mk (content.data.take 200 ++ "...".data)

/-- Recency window for `isNew` (1 hour in ms). -/
def NEW_WINDOW_MS : Int := 3600000

/-- `processAnnouncement(raw, source)` from `lib/utils.js`, with `now` the
value of `Date.now()` at construction time. -/
def processAnnouncement (now : Int) (raw : RawItem) (source : String) : Ann :=
  { id := (b64encode raw.link).take 16
    title := raw.title
    category := categorizeAnnouncement (raw.title ++ " " ++ raw.content)
    timestamp := raw.pubDateMs
    summary := generateSummary raw.content
    fullText := raw.content
    link := raw.link
    source := source
    isNew := decide (now - raw.pubDateMs < NEW_WINDOW_MS) }

/-- The deduplication fold of `fetchAllAnnouncementsInternal`:
`processed.reduce((acc, current) => { if (!acc.find(i => i.id === current.id)) acc.push(current); return acc }, [])`. -/
def dedupById (l : List Ann) : List Ann :=
  l.foldl (fun acc cur =>
    if acc.any (fun a => a.id = cur.id) then acc else acc ++ [cur]) []

/-- Keep the first occurrence of every id not yet seen (specification-style
recursion used to reason about `dedupById`). -/
def firstOcc (seen : List (List Char)) : List Ann → List Ann
  | [] => []
  | a :: t => if a.id ∈ seen then firstOcc seen t else a :: firstOcc (a.id :: seen) t

/-- Stable descending insertion by `timestamp`.  The element is placed after
every strictly newer element and before equal-timestamp elements coming later
in the recursion. -/
def insertDesc (a : Ann) : List Ann → List Ann
  | [] => [a]
  | b :: t => if a.timestamp < b.timestamp then b :: insertDesc a t else a :: b :: t

/-- Stable sort by `timestamp` descending.  ECMAScript `Array.prototype.sort`
with the comparator `(a, b) => new Date(b.timestamp) - new Date(a.timestamp)`
is specified to produce a stable, comparator-sorted permutation; for a total
preorder that output is unique, and this insertion sort realises it. -/
def sortDesc : List Ann → List Ann
  | [] => []
  | x :: xs => insertDesc x (sortDesc xs)

/-- `fetchAllAnnouncementsInternal` on an already-fetched list of raw items:
take the first 10 (`MAX_ITEMS`), normalize each (`Promise.allSettled` over
total functions: all fulfilled), deduplicate by id, sort by timestamp
descending. -/
def fetchAllAnnouncementsModel (now : Int) (raws : List RawItem) : List Ann :=
  sortDesc (dedupById ((raws.take 10).map (fun r => processAnnouncement now r r.sourceName)))

/-! ### Rate limiter (`checkRateLimit` in `api/announcements-protected.js`) -/

/-- One entry of `rateLimitStore`. -/
structure RLRecord where
  count : Nat
  resetTime : Int
deriving DecidableEq, Repr

/-- The `rateLimitStore` `Map`, as an association list keyed by client
identifier (first binding wins, like `Map.get`). -/
def Store := List (String × RLRecord)
deriving DecidableEq

/-- `rateLimitStore.get(id)` / `.has(id)`. -/
def getStore : Store → String → Option RLRecord
  | [], _ => none
  | (j, q) :: t, i => if j = i then some q else getStore t i

/-- `rateLimitStore.set(id, rec)`: replace the existing binding or append. -/
def setStore : Store → String → RLRecord → Store
  | [], i, r => [(i, r)]
  | (j, q) :: t, i, r => if j = i then (i, r) :: t else (j, q) :: setStore t i r

/-- `RATE_LIMIT_WINDOW` (60 s in ms). -/
def RATE_LIMIT_WINDOW : Int := 60000

/-- `MAX_REQUESTS_PER_WINDOW`. -/
def MAX_REQUESTS_PER_WINDOW : Nat := 10

/-- Result record of `checkRateLimit`. -/
structure RLResult where
  allowed : Bool
  remaining : Nat
  retryAfter : Option Nat
deriving DecidableEq, Repr

/-- `checkRateLimit(identifier)` with `now = Date.now()`, returning the result
and the updated store.  `Math.ceil((resetTime - now)/1000)` is taken on the
non-negative difference (that branch runs only when `now ≤ resetTime`). -/
def checkRateLimit (store : Store) (id : String) (now : Int) : RLResult × Store :=
  match getStore store id with
  | none =>
      (⟨true, MAX_REQUESTS_PER_WINDOW - 1, none⟩,
       setStore store id ⟨1, now + RATE_LIMIT_WINDOW⟩)
  | some rec =>
      if now > rec.resetTime then
        (⟨true, MAX_REQUESTS_PER_WINDOW - 1, none⟩,
         setStore store id ⟨1, now + RATE_LIMIT_WINDOW⟩)
      else if rec.count ≥ MAX_REQUESTS_PER_WINDOW then
        (⟨false, 0, some (((rec.resetTime - now).toNat + 999) / 1000)⟩, store)
      else
        (⟨true, MAX_REQUESTS_PER_WINDOW - (rec.count + 1), none⟩,
         setStore store id ⟨rec.count + 1, rec.resetTime⟩)

/-- Run a sequence of `checkRateLimit` calls for one identifier at the given
instants, collecting the per-call results and the final store. -/
def runCalls (id : String) : List Int → Store → List RLResult × Store
  | [], s => ([], s)
  | t :: rest, s =>
      let p := checkRateLimit s id t
      let q := runCalls id rest p.2
      (p.1 :: q.1, q.2)

/-! ### Request handler (`module.exports` in `api/announcements-protected.js`) -/

/-- `CACHE_DURATION` (5 minutes in ms). -/
def CACHE_DURATION : Int := 300000

/-- Module-level mutable state of the serverless function: the announcement
cache (`null` at cold start) and the rate-limit store. -/
structure ServerState where
  cachedAnnouncements : Option (List Ann)
  cacheTime : Int
  rateLimitStore : Store
deriving DecidableEq

/-- A GET request: resolved client identifier and the `category`, `search`,
`limit` query parameters (`none` = absent). -/
structure Request where
  clientId : String
  category : Option String
  search : Option String
  limit : Option String
deriving DecidableEq, Repr

/-- The JSON response: HTTP status plus the fields actually serialized on each
path (absent fields keep their defaults). -/
structure Response where
  status : Nat
  announcements : List Ann := []
  total : Nat := 0
  lastUpdate : Int := 0
  cached : Bool := false
  retryAfter : Option Nat := none
  err : Option String := none
deriving DecidableEq

/-- Value of the maximal run of leading decimal digits, `none` when there is
no leading digit. -/
def jsDigits (cs : List Char) : Option Nat :=
  match cs with
  | c :: t =>
      if '0' ≤ c ∧ c ≤ '9' then
        some (t.takeWhile (fun d => '0' ≤ d ∧ d ≤ '9')
          |>.foldl (fun acc d => acc * 10 + (d.toNat - 48)) (c.toNat - 48))
      else none
  | [] => none

/-- JS `parseInt(x, 10)` on a string: skip spaces, optional sign, maximal run
of leading decimal digits; `none` models `NaN`. -/
def jsParseInt (s : String) : Option Int :=
  match s.data.dropWhile (fun c => c = ' ') with
  | '-' :: t => (jsDigits t).map (fun n => -(n : Int))
  | '+' :: t => (jsDigits t).map (fun n => (n : Int))
  | t => (jsDigits t).map (fun n => (n : Int))

/-- `Array.prototype.slice(0, e)`: non-negative `e` truncates to the first `e`
elements, negative `e` counts from the end (clamped at 0). -/
def jsSlice (l : List Ann) (e : Int) : List Ann :=
  if 0 ≤ e then l.take e.toNat
  else l.take (l.length - min (-e).toNat l.length)

/-- Category filter step: `if (category && category !== 'ALL')` (the empty
string is falsy in JS). -/
def filterCategory (category : Option String) (cache : List Ann) : List Ann :=
  match category with
  | none => cache
  | some c => if c = "" ∨ c = "ALL" then cache
              else cache.filter (fun a => a.category = c)

/-- Search filter step: `if (search)` then case-insensitive substring match
against title OR summary. -/
def filterSearch (search : Option String) (l : List Ann) : List Ann :=
  match search with
  | none => l
  | some q =>
      if q = "" then l
      else l.filter (fun a =>
        containsSubstr (lowerData a.title) (lowerData q) ||
        containsSubstr (lowerData a.summary) (lowerData q))

/-- Limit step: `filtered.slice(0, Math.min(parseInt(limit), 100))` with
default `limit = 50`; a `NaN` end index makes `slice` return `[]`. -/
def applyLimit (limit : Option String) (l : List Ann) : List Ann :=
  match (match limit with
         | none => some (50 : Int)
         | some str => jsParseInt str).map (fun n => min n 100) with
  | none => []
  | some n => jsSlice l n

/-- The category-filter, search-filter and limit steps of the handler, in
source order. -/
def applyFilters (req : Request) (cache : List Ann) : List Ann :=
  applyLimit req.limit (filterSearch req.search (filterCategory req.category cache))

/-- The request handler for a GET request.  `fetch` is the resolved outcome of
`await fetchAllAnnouncements()` (`.error` covers an upstream failure or the
25-second timeout rejection); it is consulted only when the cache is missing
or stale.  Any rejected `await` lands in the surrounding `catch`, which
answers 500.  The OPTIONS preflight branch and response headers are not
modelled. -/
def handler (s : ServerState) (req : Request) (now : Int)
    (fetch : Except String (List Ann)) : Response × ServerState :=
  let rl := checkRateLimit s.rateLimitStore req.clientId now
  let s1 : ServerState := { s with rateLimitStore := rl.2 }
  if rl.1.allowed = false then
    ({ status := 429, retryAfter := rl.1.retryAfter, err := some "Too Many Requests" }, s1)
  else
    let stale := s.cachedAnnouncements.isNone || decide (now - s.cacheTime > CACHE_DURATION)
    let refreshed : Except String (List Ann × Int) :=
      if stale then
        match fetch with
        | .ok l => .ok (l, now)
        | .error e => .error e
      else
        .ok (s.cachedAnnouncements.getD [], s.cacheTime)
    match refreshed with
    | .error e =>
        ({ status := 500, err := some e }, s1)
    | .ok (cache, ctime) =>
        let s2 : ServerState := { s1 with cachedAnnouncements := some cache, cacheTime := ctime }
        let f3 := applyFilters req cache
        ({ status := 200, announcements := f3, total := f3.length,
           lastUpdate := ctime, cached := decide (now - ctime < CACHE_DURATION) }, s2)

/-! ### The `scripts/generate-data.js` classifier variant (word boundaries) -/

/-- Word characters of the regex `\b` class (`[A-Za-z0-9_]`). -/
def isWordChar (c : Char) : Bool :=
  ('a' ≤ c ∧ c ≤ 'z') || ('A' ≤ c ∧ c ≤ 'Z') || ('0' ≤ c ∧ c ≤ '9') || c = '_'

/-- A `\b` boundary holds between two (optional) adjacent characters iff
exactly one side is a word character (a string edge counts as non-word). -/
def boundaryAt (left right : Option Char) : Bool :=
  (match left with | none => false | some c => isWordChar c) !=
  (match right with | none => false | some c => isWordChar c)

/-- Does the regex `\b·kw·\b` match somewhere in `text`, with `prev` the
character immediately before the current suffix? -/
def wbMatch (kw : List Char) (prev : Option Char) : List Char → Bool
  | [] => kw = [] && boundaryAt prev none
  | c :: t =>
      (kw.isPrefixOf (c :: t) && boundaryAt prev kw.head? &&
        boundaryAt kw.getLast? (((c :: t).drop kw.length).head?)) ||
      wbMatch kw (some c) t

/-- `CATEGORY_KEYWORDS` from `scripts/generate-data.js` (ordered by
specificity, security first). -/
def CATEGORY_KEYWORDS_GEN : List (String × List String) :=
  [("SECURITY", ["security", "secrets manager", "kms", "waf", "shield",
      "guardduty", "inspector", "macie", "detective", "iam role",
      "iam policy", "cognito", "certificate manager", "acm"]),
   ("AI_ML", ["machine learning", "amazon bedrock", "sagemaker", "comprehend",
      "rekognition", "textract", "generative ai", "gen ai", "foundation model",
      "amazon q", "polly", "transcribe", "translate", "lex", "personalize",
      "forecast", "fraud detector", "lookout", "deepracer"]),
   ("DATABASE", ["amazon rds", "dynamodb", "aurora", "redshift", "neptune",
      "documentdb", "timestream", "elasticache", "memorydb",
      "database migration"]),
   ("CONTAINERS", ["amazon ecs", "amazon eks", "amazon ecr", "container",
      "kubernetes", "docker", "app runner", "copilot"]),
   ("SERVERLESS", ["aws lambda", "step functions", "eventbridge", "amazon sns",
      "amazon sqs", "app sync"]),
   ("COMPUTE", ["amazon ec2", "aws fargate", "aws batch", "elastic compute",
      "instance", "graviton", "lightsail", "outposts", "wavelength",
      "local zones"]),
   ("STORAGE", ["amazon s3", "amazon ebs", "amazon efs", "amazon fsx",
      "storage gateway", "backup", "glacier", "snow family"]),
   ("NETWORKING", ["amazon vpc", "cloudfront", "route 53", "direct connect",
      "transit gateway", "elastic load balancing", "elb", "alb", "nlb",
      "app mesh", "cloud map", "global accelerator"]),
   ("ANALYTICS", ["amazon athena", "amazon emr", "amazon kinesis",
      "amazon quicksight", "aws glue", "data lake", "amazon msk", "opensearch",
      "elasticsearch", "redshift", "lake formation"]),
   ("DEVTOOLS", ["codecommit", "codebuild", "codedeploy", "codepipeline",
      "codeartifact", "cloud9", "x-ray", "codewhisperer", "codeguru",
      "cloudshell"])]

/-- `categorizeAnnouncement(title, content)` from `scripts/generate-data.js`:
word-boundary regex matching over the lower-cased concatenation. -/
def categorizeAnnouncementGen (title content : String) : String :=
  let text := (lowerData (title ++ " " ++ content))
  match CATEGORY_KEYWORDS_GEN.find?
      (fun p => p.2.any (fun kw => wbMatch kw.data none text)) with
  | some p => p.1
  | none => "OTHER"

/-! ## Theorems -/

/-- Claim C3 (code_bug): the serving-path `categorizeAnnouncement` of
`lib/utils.js` matches keywords by plain substring containment, so the keyword
`"ml"` DOES match inside `"html"` and selects `AI_ML`, contradicting the
spec's word-boundary requirement; the repository's own
`scripts/generate-data.js` variant, which documents and implements
word-boundary matching, classifies the same text as `OTHER`. -/
theorem c3_substring_matching_violates_word_boundaries :
    categorizeAnnouncement "html" = "AI_ML"
    ∧ categorizeAnnouncementGen "html" "" = "OTHER" := by
  constructor <;> decide

/-- Base64 encoding distributes over an append whose left part is a whole
number of 3-byte groups. -/
theorem b64encode_append : ∀ (l₁ l₂ : List Nat), l₁.length % 3 = 0 →
    b64encode (l₁ ++ l₂) = b64encode l₁ ++ b64encode l₂
  | [], _, _ => by simp [b64encode]
  | [_], _, h => by simp at h
  | [_, _], _, h => by simp at h
  | a :: b :: c :: t, l₂, h => by
      have ht : t.length % 3 = 0 := by
        simp only [List.length_cons] at h
        omega
      simp only [List.cons_append, b64encode, List.append_eq,
        b64encode_append t l₂ ht]

/-- Length of the base64 encoding of a whole number of 3-byte groups. -/
theorem b64encode_length : ∀ (l : List Nat), l.length % 3 = 0 →
    (b64encode l).length = l.length / 3 * 4
  | [], _ => rfl
  | [_], h => by simp at h
  | [_, _], h => by simp at h
  | a :: b :: c :: t, h => by
      have ht : t.length % 3 = 0 := by
        simp only [List.length_cons] at h
        omega
      simp only [b64encode, List.length_cons, b64encode_length t ht]
      omega

/-- For a link of at least 12 bytes, the first 16 base64 characters are
exactly the encoding of the first 12 bytes. -/
theorem take16_b64encode (l : List Nat) (h : 12 ≤ l.length) :
    (b64encode l).take 16 = b64encode (l.take 12) := by
  have h12 : (l.take 12).length = 12 := by
    simp [List.length_take]
    omega
  have hmod : (l.take 12).length % 3 = 0 := by rw [h12]
  have hlen : (b64encode (l.take 12)).length = 16 := by
    rw [b64encode_length _ hmod, h12]
  calc (b64encode l).take 16
      = (b64encode (l.take 12 ++ l.drop 12)).take 16 := by
        rw [List.take_append_drop]
    _ = (b64encode (l.take 12) ++ b64encode (l.drop 12)).take 16 := by
        rw [b64encode_append _ _ hmod]
    _ = b64encode (l.take 12) := by
        rw [← hlen, List.take_left]

/-- Claim C2 (confirmed): the id produced by `processAnnouncement` is the
first 16 base64 characters of the link, which encode exactly its first 12
bytes; two raw items whose links agree on their first 12 bytes therefore get
equal ids, and the deduplication fold keeps only the earlier of the two
processed items and drops the later one entirely. -/
theorem c2_id_encodes_first_12_bytes (x y : RawItem) (sx sy : String)
    (nx ny : Int)
    (hx : 12 ≤ x.link.length) (hy : 12 ≤ y.link.length)
    (hpre : x.link.take 12 = y.link.take 12) :
    (processAnnouncement nx x sx).id = b64encode (x.link.take 12)
    ∧ (processAnnouncement nx x sx).id = (processAnnouncement ny y sy).id
    ∧ dedupById [processAnnouncement nx x sx, processAnnouncement ny y sy]
        = [processAnnouncement nx x sx] := by
  have h1 : (processAnnouncement nx x sx).id = b64encode (x.link.take 12) := by
    simp only [processAnnouncement]
    exact take16_b64encode _ hx
  have h2 : (processAnnouncement ny y sy).id = b64encode (y.link.take 12) := by
    simp only [processAnnouncement]
    exact take16_b64encode _ hy
  have hid : (processAnnouncement nx x sx).id = (processAnnouncement ny y sy).id := by
    rw [h1, h2, hpre]
  refine ⟨h1, hid, ?_⟩
  simp [dedupById, hid]

/-- Concrete instance of `c2_id_encodes_first_12_bytes`: two different AWS
URLs sharing the 12-byte prefix `"https://aws."` collide and the later item is
dropped. -/
theorem c2_id_encodes_first_12_bytes_witness :
    (processAnnouncement 0 ⟨"a", "https://aws.amazon.com/x".data.map Char.toNat, 0, "c", "s"⟩ "s").id
      = (processAnnouncement 5 ⟨"b", "https://aws.example.org/y".data.map Char.toNat, 7, "d", "s"⟩ "s").id :=
  (c2_id_encodes_first_12_bytes _ _ "s" "s" 0 5
    (by decide) (by decide) (by decide)).2.1


theorem firstOcc_seen_congr : ∀ (l : List Ann) (s₁ s₂ : List (List Char)),
    (∀ x, x ∈ s₁ ↔ x ∈ s₂) → firstOcc s₁ l = firstOcc s₂ l
  | [], _, _, _ => rfl
  | a :: t, s₁, s₂, h => by
      simp only [firstOcc]
      by_cases ha : a.id ∈ s₁
      · rw [if_pos ha, if_pos ((h _).mp ha), firstOcc_seen_congr t s₁ s₂ h]
      · rw [if_neg ha, if_neg (fun hc => ha ((h _).mpr hc))]
        rw [firstOcc_seen_congr t (a.id :: s₁) (a.id :: s₂)]
        intro x
        simp only [List.mem_cons]
        exact or_congr Iff.rfl (h x)

theorem dedup_foldl_eq : ∀ (l acc : List Ann),
    l.foldl (fun acc cur =>
        if acc.any (fun a => a.id = cur.id) then acc else acc ++ [cur]) acc
      = acc ++ firstOcc (acc.map Ann.id) l := by
  intro l
  induction l with
  | nil => intro acc; simp [firstOcc]
  | cons x t ih =>
    intro acc
    by_cases hx : x.id ∈ acc.map Ann.id
    · have hany : (acc.any fun a => a.id = x.id) = true := by
        simp only [List.any_eq_true, decide_eq_true_eq]
        obtain ⟨a, ha, hids⟩ := List.mem_map.mp hx
        exact ⟨a, ha, hids⟩
      simp only [List.foldl_cons, hany, if_true, ih acc, firstOcc, if_pos hx]
    · have hany : (acc.any fun a => a.id = x.id) = false := by
        simp only [List.any_eq_false, decide_eq_true_eq]
        intro a ha hids
        exact hx (List.mem_map.mpr ⟨a, ha, hids⟩)
      simp only [List.foldl_cons, hany, if_false, Bool.false_eq_true, ih,
        firstOcc, if_neg hx, List.map_append, List.map_cons, List.map_nil]
      rw [firstOcc_seen_congr t (acc.map Ann.id ++ [x.id]) (x.id :: acc.map Ann.id)
        (by intro z; simp [List.mem_cons, List.mem_append, or_comm])]
      simp [List.append_assoc]

theorem dedupById_eq_firstOcc (l : List Ann) : dedupById l = firstOcc [] l := by
  have h := dedup_foldl_eq l []
  simpa [dedupById] using h

theorem firstOcc_all_kept : ∀ (l : List Ann) (s : List (List Char)),
    (∀ x ∈ l, x.id ∉ s) → ((l.map Ann.id).Nodup) → firstOcc s l = l
  | [], _, _, _ => rfl
  | a :: t, s, h1, h2 => by
      simp only [List.map_cons, List.nodup_cons] at h2
      rw [firstOcc, if_neg (h1 a (List.mem_cons_self a t))]
      rw [firstOcc_all_kept t (a.id :: s) ?_ h2.2]
      intro x hx
      simp only [List.mem_cons, not_or]
      refine ⟨?_, h1 x (List.mem_cons_of_mem a hx)⟩
      intro hcontra
      exact h2.1 (hcontra ▸ List.mem_map.mpr ⟨x, hx, rfl⟩)

theorem firstOcc_append : ∀ (u v : List Ann) (s : List (List Char)),
    firstOcc s (u ++ v) = firstOcc s u ++ firstOcc (u.map Ann.id ++ s) v
  | [], v, s => by simp [firstOcc]
  | a :: t, v, s => by
      simp only [List.cons_append, firstOcc, List.map_cons, List.append_eq]
      by_cases ha : a.id ∈ s
      · rw [if_pos ha, if_pos ha, firstOcc_append t v s]
        rw [firstOcc_seen_congr v (t.map Ann.id ++ s) (a.id :: (t.map Ann.id ++ s))]
        intro z
        simp only [List.mem_cons, List.mem_append]
        constructor
        · intro h
          exact Or.inr h
        · intro h
          rcases h with h | h
          · rw [h]
            exact Or.inr ha
          · exact h
      · rw [if_neg ha, if_neg ha, firstOcc_append t v (a.id :: s), List.cons_append]
        rw [firstOcc_seen_congr v (t.map Ann.id ++ a.id :: s) (a.id :: (t.map Ann.id ++ s))]
        intro z
        simp only [List.mem_cons, List.mem_append]
        tauto


/-- Claim C7 (confirmed): in a batch whose only id collision is the pair
`(a, b)` (`b` occurring later), the deduplication fold keeps exactly the
earlier item `a` for that id and leaves every other item unchanged and in
order: the result is the batch with `b` deleted. -/
theorem c7_dedup_first_wins (p q r : List Ann) (a b : Ann)
    (hid : b.id = a.id)
    (hnd : ((p ++ a :: (q ++ r)).map Ann.id).Nodup) :
    dedupById (p ++ a :: (q ++ b :: r)) = p ++ a :: (q ++ r) := by
  simp only [List.map_append, List.map_cons, List.nodup_append,
    List.nodup_cons, List.mem_append, List.mem_cons,
    List.disjoint_left] at hnd
  obtain ⟨hp, ⟨hanotqr, ⟨hq, hr, hqr⟩⟩, hdisj⟩ := hnd
  have hanotq : a.id ∉ q.map Ann.id := fun h => hanotqr (Or.inl h)
  have hanotr : a.id ∉ r.map Ann.id := fun h => hanotqr (Or.inr h)
  have hanotp : a.id ∉ p.map Ann.id := fun h => hdisj h (Or.inl rfl)
  rw [dedupById_eq_firstOcc, firstOcc_append]
  have hkp : firstOcc [] p = p :=
    firstOcc_all_kept p [] (fun x _ => List.not_mem_nil x.id) hp
  rw [hkp, List.append_nil]
  rw [firstOcc]
  rw [if_neg hanotp]
  rw [firstOcc_append q (b :: r) (a.id :: p.map Ann.id)]
  have hkq : firstOcc (a.id :: p.map Ann.id) q = q := by
    apply firstOcc_all_kept q _ _ hq
    intro x hx
    simp only [List.mem_cons, not_or]
    constructor
    · intro hcontra
      exact hanotq (hcontra ▸ List.mem_map.mpr ⟨x, hx, rfl⟩)
    · intro hcontra
      exact hdisj hcontra (Or.inr (Or.inl (List.mem_map.mpr ⟨x, hx, rfl⟩)))
  rw [hkq]
  rw [firstOcc]
  rw [if_pos (by
    rw [hid]
    simp only [List.mem_append, List.mem_cons]
    tauto)]
  have hkr : firstOcc (q.map Ann.id ++ a.id :: p.map Ann.id) r = r := by
    apply firstOcc_all_kept r _ _ hr
    intro x hx
    simp only [List.mem_append, List.mem_cons, not_or]
    refine ⟨?_, ?_, ?_⟩
    · intro hcontra
      exact hqr hcontra (List.mem_map.mpr ⟨x, hx, rfl⟩)
    · intro hcontra
      exact hanotr (hcontra ▸ List.mem_map.mpr ⟨x, hx, rfl⟩)
    · intro hcontra
      exact hdisj hcontra (Or.inr (Or.inr (List.mem_map.mpr ⟨x, hx, rfl⟩)))
  rw [hkr]

/-- Concrete instance of `c7_dedup_first_wins` on a five-item batch. -/
theorem c7_dedup_first_wins_witness :
    dedupById [(⟨"P".data, "tp", "OTHER", 0, "sp", "fp", [], "s", false⟩ : Ann),
        ⟨"A".data, "ta", "OTHER", 1, "sa", "fa", [], "s", false⟩,
        ⟨"Q".data, "tq", "OTHER", 2, "sq", "fq", [], "s", false⟩,
        ⟨"A".data, "tb", "OTHER", 3, "sb", "fb", [], "s", false⟩,
        ⟨"R".data, "tr", "OTHER", 4, "sr", "fr", [], "s", false⟩]
      = [⟨"P".data, "tp", "OTHER", 0, "sp", "fp", [], "s", false⟩,
        ⟨"A".data, "ta", "OTHER", 1, "sa", "fa", [], "s", false⟩,
        ⟨"Q".data, "tq", "OTHER", 2, "sq", "fq", [], "s", false⟩,
        ⟨"R".data, "tr", "OTHER", 4, "sr", "fr", [], "s", false⟩] :=
  c7_dedup_first_wins
    [⟨"P".data, "tp", "OTHER", 0, "sp", "fp", [], "s", false⟩]
    [⟨"Q".data, "tq", "OTHER", 2, "sq", "fq", [], "s", false⟩]
    [⟨"R".data, "tr", "OTHER", 4, "sr", "fr", [], "s", false⟩]
    ⟨"A".data, "ta", "OTHER", 1, "sa", "fa", [], "s", false⟩
    ⟨"A".data, "tb", "OTHER", 3, "sb", "fb", [], "s", false⟩
    (by decide) (by decide)


theorem nameIdx_isSome_of_matchesIn : ∀ (t : List (String × List String)) (text A : String),
    matchesIn t text A = true → (nameIdx A t).isSome = true
  | [], text, A, hm => by simp [matchesIn, List.find?] at hm
  | h :: t, text, A, hm => by
      by_cases hname : h.1 = A
      · simp [nameIdx, hname]
      · have hmt : matchesIn t text A = true := by
          simpa [matchesIn, List.find?, hname] using hm
        have := nameIdx_isSome_of_matchesIn t text A hmt
        simp [nameIdx, hname, Option.isSome_map, this]

theorem precedesIn_head (h : String × List String) (t : List (String × List String))
    (A : String) (hname : h.1 ≠ A) (hA : (nameIdx A t).isSome = true) :
    precedesIn (h :: t) h.1 A = true := by
  obtain ⟨j, hj⟩ := Option.isSome_iff_exists.mp hA
  simp [precedesIn, nameIdx, hname, hj]

theorem precedesIn_cons_shift (h : String × List String) (t : List (String × List String))
    (C A : String) (hC : h.1 ≠ C) (hA : h.1 ≠ A)
    (hp : precedesIn t C A = true) : precedesIn (h :: t) C A = true := by
  simp only [precedesIn] at hp
  rcases hidxC : nameIdx C t with _ | i
  · rw [hidxC] at hp; simp at hp
  · rcases hidxA : nameIdx A t with _ | j
    · rw [hidxC, hidxA] at hp; simp at hp
    · rw [hidxC, hidxA] at hp
      simp only [decide_eq_true_eq] at hp
      simp [precedesIn, nameIdx, hC, hA, hidxC, hidxA, hp]

theorem findCategory_first_match : ∀ (l : List (String × List String)) (text A : String),
    (l.map Prod.fst).Nodup →
    matchesIn l text A = true →
    (∀ p ∈ l, precedesIn l p.1 A = true → catMatches text p = false) →
    findCategory l text = A
  | [], text, A, _, hm, _ => by simp [matchesIn, List.find?] at hm
  | h :: t, text, A, hnd, hm, hfirst => by
      simp only [List.map_cons, List.nodup_cons] at hnd
      by_cases hname : h.1 = A
      · have hch : catMatches text h = true := by
          simpa [matchesIn, List.find?, hname] using hm
        simp [findCategory, List.find?, hch, hname]
      · have hmt : matchesIn t text A = true := by
          simpa [matchesIn, List.find?, hname] using hm
        have hAt : (nameIdx A t).isSome = true :=
          nameIdx_isSome_of_matchesIn t text A hmt
        have hch : catMatches text h = false :=
          hfirst h (List.mem_cons_self h t) (precedesIn_head h t A hname hAt)
        have hstep : findCategory (h :: t) text = findCategory t text := by
          simp [findCategory, List.find?, hch]
        rw [hstep]
        apply findCategory_first_match t text A hnd.2 hmt
        intro p hp hpt
        apply hfirst p (List.mem_cons_of_mem h hp)
        apply precedesIn_cons_shift h t p.1 A ?_ hname hpt
        intro hc
        exact hnd.1 (hc ▸ List.mem_map.mpr ⟨p, hp, rfl⟩)

/-- Claim C9 (corrected): the classifier returns the earliest category in the
fixed ordered list whose keyword list matches; in particular it returns `A`
for a text matching categories `A` and `B` with `A` before `B`, PROVIDED no
category preceding `A` also matches (the unqualified claim is refuted by
`c9_counterexample`).  A text matching no category yields `OTHER`. -/
theorem c9_first_match_priority :
    (∀ text A B, precedes A B = true → matchesCat text A = true →
      matchesCat text B = true →
      (∀ p ∈ CATEGORY_KEYWORDS, precedes p.1 A = true → catMatches text p = false) →
      categorizeAnnouncement text = A)
    ∧ (∀ text, (∀ p ∈ CATEGORY_KEYWORDS, catMatches text p = false) →
      categorizeAnnouncement text = "OTHER") := by
  constructor
  · intro text A B hAB hA hB hfirst
    exact findCategory_first_match CATEGORY_KEYWORDS text A (by decide) hA hfirst
  · intro text hnone
    have hfn : CATEGORY_KEYWORDS.find? (catMatches text) = none := by
      rw [List.find?_eq_none]
      intro p hp
      simp [hnone p hp]
    simp [categorizeAnnouncement, findCategory, hfn]

/-- Claim C9 counterexample: the text `"ai meets ec2 and s3"` contains
keywords of `COMPUTE` and of `STORAGE` and `COMPUTE` precedes `STORAGE`, yet
the classifier answers `AI_ML` (the substring `"ai"` matches the earlier
`AI_ML` category), not `COMPUTE`. -/
theorem c9_counterexample :
    precedes "COMPUTE" "STORAGE" = true
    ∧ matchesCat "ai meets ec2 and s3" "COMPUTE" = true
    ∧ matchesCat "ai meets ec2 and s3" "STORAGE" = true
    ∧ categorizeAnnouncement "ai meets ec2 and s3" ≠ "COMPUTE" := by
  refine ⟨by decide, by decide, by decide, by decide⟩

/-- Concrete instance of `c9_first_match_priority`. -/
theorem c9_first_match_priority_witness :
    categorizeAnnouncement "ec2 with s3" = "COMPUTE"
    ∧ categorizeAnnouncement "qqq" = "OTHER" :=
  ⟨c9_first_match_priority.1 "ec2 with s3" "COMPUTE" "STORAGE"
      (by decide) (by decide) (by decide) (by decide),
   c9_first_match_priority.2 "qqq" (by decide)⟩


theorem mem_insertDesc {x a : Ann} : ∀ {l : List Ann},
    x ∈ insertDesc a l ↔ x = a ∨ x ∈ l
  | [] => by simp [insertDesc]
  | b :: t => by
      simp only [insertDesc]
      by_cases h : a.timestamp < b.timestamp
      · rw [if_pos h]
        simp only [List.mem_cons, mem_insertDesc (l := t)]
        tauto
      · rw [if_neg h]
        simp [List.mem_cons]

theorem pairwise_insertDesc (a : Ann) : ∀ (l : List Ann),
    l.Pairwise (fun u v => v.timestamp ≤ u.timestamp) →
    (insertDesc a l).Pairwise (fun u v => v.timestamp ≤ u.timestamp)
  | [], _ => by simp [insertDesc]
  | b :: t, h => by
      rw [List.pairwise_cons] at h
      by_cases hab : a.timestamp < b.timestamp
      · rw [insertDesc, if_pos hab, List.pairwise_cons]
        constructor
        · intro x hx
          rcases mem_insertDesc.mp hx with rfl | hxt
          · exact le_of_lt hab
          · exact h.1 x hxt
        · exact pairwise_insertDesc a t h.2
      · rw [insertDesc, if_neg hab, List.pairwise_cons]
        push_neg at hab
        refine ⟨?_, List.pairwise_cons.mpr h⟩
        intro x hx
        rcases List.mem_cons.mp hx with rfl | hxt
        · exact hab
        · exact le_trans (h.1 x hxt) hab

theorem sortDesc_pairwise : ∀ (l : List Ann),
    (sortDesc l).Pairwise (fun u v => v.timestamp ≤ u.timestamp)
  | [] => by simp [sortDesc]
  | x :: xs => pairwise_insertDesc x (sortDesc xs) (sortDesc_pairwise xs)

theorem filter_insertDesc_pos (a : Ann) (ts : Int) (h : a.timestamp = ts) :
    ∀ (l : List Ann),
    (insertDesc a l).filter (fun x => x.timestamp = ts)
      = a :: l.filter (fun x => x.timestamp = ts)
  | [] => by simp [insertDesc, List.filter_cons, h]
  | b :: t => by
      by_cases hab : a.timestamp < b.timestamp
      · have hbf : ¬(b.timestamp = ts) := by
          rw [← h]
          exact (ne_of_gt hab)
        rw [insertDesc, if_pos hab, List.filter_cons, List.filter_cons]
        simp only [decide_eq_false hbf, Bool.false_eq_true, if_false]
        exact filter_insertDesc_pos a ts h t
      · rw [insertDesc, if_neg hab, List.filter_cons]
        simp [h]

theorem filter_insertDesc_neg (a : Ann) (ts : Int) (h : ¬(a.timestamp = ts)) :
    ∀ (l : List Ann),
    (insertDesc a l).filter (fun x => x.timestamp = ts)
      = l.filter (fun x => x.timestamp = ts)
  | [] => by simp [insertDesc, List.filter_cons, h]
  | b :: t => by
      by_cases hab : a.timestamp < b.timestamp
      · rw [insertDesc, if_pos hab, List.filter_cons, List.filter_cons]
        rw [filter_insertDesc_neg a ts h t]
      · rw [insertDesc, if_neg hab, List.filter_cons, List.filter_cons]
        simp only [decide_eq_false h, Bool.false_eq_true, if_false]

theorem sortDesc_stable : ∀ (l : List Ann) (ts : Int),
    (sortDesc l).filter (fun x => x.timestamp = ts)
      = l.filter (fun x => x.timestamp = ts)
  | [], _ => rfl
  | x :: xs, ts => by
      by_cases hx : x.timestamp = ts
      · rw [sortDesc, filter_insertDesc_pos x ts hx, sortDesc_stable xs ts,
          List.filter_cons]
        simp [hx]
      · rw [sortDesc, filter_insertDesc_neg x ts hx, sortDesc_stable xs ts,
          List.filter_cons]
        simp [hx]

theorem jsSlice_sublist (l : List Ann) (e : Int) : (jsSlice l e).Sublist l := by
  rw [jsSlice]
  split
  · exact List.take_sublist _ _
  · exact List.take_sublist _ _

theorem filterCategory_sublist (c : Option String) (l : List Ann) :
    (filterCategory c l).Sublist l := by
  rcases c with _ | c
  · exact List.Sublist.refl l
  · simp only [filterCategory]
    split
    · exact List.Sublist.refl l
    · exact List.filter_sublist l

theorem filterSearch_sublist (q : Option String) (l : List Ann) :
    (filterSearch q l).Sublist l := by
  rcases q with _ | q
  · exact List.Sublist.refl l
  · simp only [filterSearch]
    split
    · exact List.Sublist.refl l
    · exact List.filter_sublist l

theorem applyLimit_sublist (lim : Option String) (l : List Ann) :
    (applyLimit lim l).Sublist l := by
  unfold applyLimit
  split
  · exact List.nil_sublist l
  · exact jsSlice_sublist l _

theorem applyFilters_sublist (req : Request) (cache : List Ann) :
    (applyFilters req cache).Sublist cache :=
  ((applyLimit_sublist _ _).trans (filterSearch_sublist _ _)).trans
    (filterCategory_sublist _ _)

theorem handler_announcements_sublist (s : ServerState) (req : Request)
    (now : Int) (fetch : Except String (List Ann)) :
    (handler s req now fetch).1.announcements.Sublist (s.cachedAnnouncements.getD [])
    ∨ ∃ l, fetch = .ok l ∧ (handler s req now fetch).1.announcements.Sublist l := by
  by_cases hall : (checkRateLimit s.rateLimitStore req.clientId now).1.allowed = false
  · left
    simp [handler, hall]
  · by_cases hstale :
      (s.cachedAnnouncements.isNone || decide (now - s.cacheTime > CACHE_DURATION)) = true
    · rcases hfetch : fetch with e | l
      · left
        simp [handler, hall, hstale, hfetch]
      · right
        refine ⟨l, rfl, ?_⟩
        simp only [handler, hall, hstale, hfetch, Bool.false_eq_true, if_false,
          if_true]
        exact applyFilters_sublist req l
    · left
      simp only [Bool.not_eq_true] at hstale
      simp only [handler, hall, hstale, Bool.false_eq_true, if_false]
      exact applyFilters_sublist req _


/-- Claim C10 (confirmed): every result set is in non-increasing timestamp
order with ties in stable insertion order — the list computed by the fetch
pipeline is sorted that way, the sort is stable (elements of equal timestamp
keep their input order, stated via filters), and every response of the
handler serves a sublist of a sorted cache (or of the sorted freshly fetched
list), hence is itself sorted. -/
theorem c10_sort_order :
    (∀ (now : Int) (raws : List RawItem),
        (fetchAllAnnouncementsModel now raws).Pairwise
          (fun u v => v.timestamp ≤ u.timestamp))
    ∧ (∀ (l : List Ann) (ts : Int),
        (sortDesc l).filter (fun x => x.timestamp = ts)
          = l.filter (fun x => x.timestamp = ts))
    ∧ (∀ (s : ServerState) (req : Request) (now : Int)
          (fetch : Except String (List Ann)),
        (s.cachedAnnouncements.getD []).Pairwise
          (fun u v => v.timestamp ≤ u.timestamp) →
        (∀ l, fetch = .ok l → l.Pairwise (fun u v => v.timestamp ≤ u.timestamp)) →
        (handler s req now fetch).1.announcements.Pairwise
          (fun u v => v.timestamp ≤ u.timestamp)) := by
  refine ⟨?_, sortDesc_stable, ?_⟩
  · intro now raws
    exact sortDesc_pairwise _
  · intro s req now fetch hc hf
    rcases handler_announcements_sublist s req now fetch with h | ⟨l, hl, h⟩
    · exact List.Pairwise.sublist h hc
    · exact List.Pairwise.sublist h (hf l hl)

/-- Concrete instance of the handler clause of `c10_sort_order`. -/
theorem c10_sort_order_witness :
    (handler
        ⟨some [⟨"A".data, "t1", "OTHER", 5, "s1", "f1", [], "s", false⟩,
               ⟨"B".data, "t2", "OTHER", 3, "s2", "f2", [], "s", false⟩],
          0, []⟩
        ⟨"ip", none, none, none⟩ 10 (.error "unused")).1.announcements.Pairwise
      (fun u v => v.timestamp ≤ u.timestamp) :=
  c10_sort_order.2.2
    ⟨some [⟨"A".data, "t1", "OTHER", 5, "s1", "f1", [], "s", false⟩,
           ⟨"B".data, "t2", "OTHER", 3, "s2", "f2", [], "s", false⟩],
      0, []⟩
    ⟨"ip", none, none, none⟩ 10 (.error "unused")
    (by decide) (fun l hl => Except.noConfusion hl)


theorem runCalls_length (id : String) : ∀ (ts : List Int) (s : Store),
    (runCalls id ts s).1.length = ts.length
  | [], _ => rfl
  | t :: rest, s => by
      simp [runCalls, runCalls_length id rest]

theorem runCalls_append (id : String) : ∀ (u v : List Int) (s : Store),
    runCalls id (u ++ v) s
      = ((runCalls id u s).1 ++ (runCalls id v (runCalls id u s).2).1,
         (runCalls id v (runCalls id u s).2).2)
  | [], v, s => by simp [runCalls]
  | t :: rest, v, s => by
      simp only [List.cons_append, runCalls, List.append_eq,
        runCalls_append id rest v]

theorem checkRateLimit_first (id : String) (t : Int) :
    checkRateLimit [] id t = (⟨true, 9, none⟩, [(id, ⟨1, t + 60000⟩)]) := by
  simp [checkRateLimit, getStore, setStore, MAX_REQUESTS_PER_WINDOW,
    RATE_LIMIT_WINDOW]

theorem checkRateLimit_active (id : String) (t r : Int) (c : Nat)
    (hns : ¬(t > r)) (hlt : c < 10) :
    checkRateLimit [(id, ⟨c, r⟩)] id t
      = (⟨true, 10 - (c + 1), none⟩, [(id, ⟨c + 1, r⟩)]) := by
  have hge : ¬(c ≥ 10) := by omega
  simp [checkRateLimit, getStore, setStore, MAX_REQUESTS_PER_WINDOW, hns, hge]

theorem checkRateLimit_reject (id : String) (t r : Int) (hns : ¬(t > r)) :
    checkRateLimit [(id, ⟨10, r⟩)] id t
      = (⟨false, 0, some (((r - t).toNat + 999) / 1000)⟩, [(id, ⟨10, r⟩)]) := by
  simp [checkRateLimit, getStore, MAX_REQUESTS_PER_WINDOW, hns]

theorem runCalls_allowed_within (id : String) : ∀ (ts : List Int) (c : Nat) (r : Int),
    (∀ t ∈ ts, t ≤ r) → 1 ≤ c → c + ts.length ≤ 10 →
    (∀ res ∈ (runCalls id ts [(id, ⟨c, r⟩)]).1, res.allowed = true)
    ∧ (runCalls id ts [(id, ⟨c, r⟩)]).2 = [(id, ⟨c + ts.length, r⟩)]
  | [], c, r, _, _, _ => by simp [runCalls]
  | t :: rest, c, r, hin, hc, hlen => by
      have ht : ¬(t > r) := not_lt.mpr (hin t (List.mem_cons_self _ _))
      have hlen2 : c + rest.length + 1 ≤ 10 := by
        simp only [List.length_cons] at hlen
        omega
      have hclt : c < 10 := by omega
      have h1c : 1 ≤ c + 1 := by omega
      have h10 : c + 1 + rest.length ≤ 10 := by omega
      have hrec := runCalls_allowed_within id rest (c + 1) r
        (fun x hx => hin x (List.mem_cons_of_mem _ hx)) h1c h10
      simp only [runCalls, checkRateLimit_active id t r c ht hclt]
      constructor
      · intro res hres
        rcases List.mem_cons.mp hres with rfl | h2
        · rfl
        · exact hrec.1 res h2
      · rw [hrec.2]
        simp only [List.length_cons]
        have hc2 : c + 1 + rest.length = c + (rest.length + 1) := by omega
        rw [hc2]

/-- Claim C5 (corrected): with M=10 and W=60 s, ten calls within one window
are all allowed and the 11th call in the same active window is rejected; its
`retryAfterSeconds` lies in [1, 60] PROVIDED the 11th call occurs strictly
before `windowResetTime`.  At the boundary instant `now = windowResetTime`
the window is still active (the code resets only when `now > resetTime`), the
call is rejected, but `retryAfterSeconds = ceil(0/1000) = 0`, outside the
claimed range (see `c5_counterexample`). -/
theorem c5_rate_limit_window (id : String) (t1 t11 : Int) (ts : List Int)
    (hlen : ts.length = 9) (hin : ∀ t ∈ ts, t ≤ t1 + 60000)
    (hlo : t1 ≤ t11) (hhi : t11 < t1 + 60000) :
    (∀ res ∈ ((runCalls id (t1 :: ts ++ [t11]) []).1.take 10), res.allowed = true)
    ∧ ∃ k, (runCalls id (t1 :: ts ++ [t11]) []).1.getLast?
        = some ⟨false, 0, some k⟩ ∧ 1 ≤ k ∧ k ≤ 60 := by
  have hmid := runCalls_allowed_within id ts 1 (t1 + 60000)
    hin (le_refl 1) (by omega)
  have hone : runCalls id (t1 :: ts ++ [t11]) []
      = ((⟨true, 9, none⟩ : RLResult) :: (runCalls id (ts ++ [t11]) [(id, ⟨1, t1 + 60000⟩)]).1,
         (runCalls id (ts ++ [t11]) [(id, ⟨1, t1 + 60000⟩)]).2) := by
    simp only [List.cons_append, runCalls, List.append_eq, checkRateLimit_first]
  have hsplit := runCalls_append id ts [t11] [(id, ⟨1, t1 + 60000⟩)]
  have hstore10 : (runCalls id ts [(id, ⟨1, t1 + 60000⟩)]).2
      = [(id, ⟨10, t1 + 60000⟩)] := by
    rw [hmid.2, hlen]
  have hns : ¬(t11 > t1 + 60000) := by omega
  have hrej : runCalls id [t11] [(id, ⟨10, t1 + 60000⟩)]
      = ([⟨false, 0, some (((t1 + 60000 - t11).toNat + 999) / 1000)⟩],
         [(id, ⟨10, t1 + 60000⟩)]) := by
    simp [runCalls, checkRateLimit_reject id t11 (t1 + 60000) hns]
  have hfull : (runCalls id (t1 :: ts ++ [t11]) []).1
      = (⟨true, 9, none⟩ : RLResult) :: (runCalls id ts [(id, ⟨1, t1 + 60000⟩)]).1
          ++ [⟨false, 0, some (((t1 + 60000 - t11).toNat + 999) / 1000)⟩] := by
    rw [hone, hsplit, hstore10, hrej]
    rfl
  have hmlen : (runCalls id ts [(id, ⟨1, t1 + 60000⟩)]).1.length = 9 := by
    rw [runCalls_length, hlen]
  have hlen10 : ((⟨true, 9, none⟩ : RLResult)
      :: (runCalls id ts [(id, ⟨1, t1 + 60000⟩)]).1).length = 10 := by
    simp [hmlen]
  constructor
  · intro res hres
    rw [hfull, List.take_left' hlen10] at hres
    rcases List.mem_cons.mp hres with rfl | h2
    · rfl
    · exact hmid.1 res h2
  · refine ⟨((t1 + 60000 - t11).toNat + 999) / 1000, ?_, ?_, ?_⟩
    · rw [hfull, List.getLast?_concat]
    · omega
    · omega

/-- Claim C5 counterexample: ten calls at t=0 and the 11th exactly at the
window reset instant t=60000: the call is rejected inside the active window
with `retryAfterSeconds = 0`, not a value between 1 and 60. -/
theorem c5_counterexample :
    ((runCalls "a" [0, 0, 0, 0, 0, 0, 0, 0, 0, 0, 60000] []).1.map (fun r => r.allowed)
      = [true, true, true, true, true, true, true, true, true, true, false])
    ∧ (runCalls "a" [0, 0, 0, 0, 0, 0, 0, 0, 0, 0, 60000] []).1.getLast?
        = some ⟨false, 0, some 0⟩ := by
  constructor
  · rfl
  · rfl

/-- Concrete instance of `c5_rate_limit_window`. -/
theorem c5_rate_limit_window_witness :
    (∀ res ∈ ((runCalls "a" ((0 : Int) :: [0, 0, 0, 0, 0, 0, 0, 0, 0] ++ [30000]) []).1.take 10),
      res.allowed = true)
    ∧ ∃ k, (runCalls "a" ((0 : Int) :: [0, 0, 0, 0, 0, 0, 0, 0, 0] ++ [30000]) []).1.getLast?
        = some ⟨false, 0, some k⟩ ∧ 1 ≤ k ∧ k ≤ 60 :=
  c5_rate_limit_window "a" 0 30000 [0, 0, 0, 0, 0, 0, 0, 0, 0]
    (by decide) (by decide) (by decide) (by decide)


/-- Claim C1 (corrected): when the cache holds a previously computed list but
is stale and the refresh attempt fails (upstream error or timeout), the
handler does NOT serve the cached list with 200 — the rejected `await` falls
into the catch block and the request is answered 500 with an empty
announcement list, while the cached list and its timestamp remain unchanged
in memory (see `c1_counterexample` for the claim as stated). -/
theorem c1_stale_cache_failure_returns_500 (s : ServerState) (req : Request)
    (now : Int) (e : String) (prev : List Ann)
    (hcache : s.cachedAnnouncements = some prev)
    (hstale : now - s.cacheTime > CACHE_DURATION)
    (hallowed : (checkRateLimit s.rateLimitStore req.clientId now).1.allowed = true) :
    (handler s req now (.error e)).1.status = 500
    ∧ (handler s req now (.error e)).1.announcements = []
    ∧ (handler s req now (.error e)).2.cachedAnnouncements = some prev
    ∧ (handler s req now (.error e)).2.cacheTime = s.cacheTime := by
  simp [handler, hallowed, hcache, hstale]

/-- Claim C1 counterexample: populated cache (one announcement, cached at
t=0), request at t=300001 (stale), refresh fails — the response status is
500 and carries no announcements, not a 200 with the cached list. -/
theorem c1_counterexample :
    (handler ⟨some [⟨"A".data, "t", "OTHER", 0, "s", "f", [], "src", false⟩], 0, []⟩
        ⟨"ip", none, none, none⟩ 300001 (.error "upstream failure")).1.status = 500
    ∧ (handler ⟨some [⟨"A".data, "t", "OTHER", 0, "s", "f", [], "src", false⟩], 0, []⟩
        ⟨"ip", none, none, none⟩ 300001 (.error "upstream failure")).1.announcements = [] := by
  exact ⟨rfl, rfl⟩

/-- Concrete instance of `c1_stale_cache_failure_returns_500`. -/
theorem c1_stale_cache_failure_returns_500_witness :
    (handler ⟨some [⟨"B".data, "u", "OTHER", 1, "s2", "f2", [], "src", true⟩], 5, []⟩
        ⟨"cl", none, none, none⟩ 300010 (.error "boom")).1.status = 500
    ∧ (handler ⟨some [⟨"B".data, "u", "OTHER", 1, "s2", "f2", [], "src", true⟩], 5, []⟩
        ⟨"cl", none, none, none⟩ 300010 (.error "boom")).1.announcements = []
    ∧ (handler ⟨some [⟨"B".data, "u", "OTHER", 1, "s2", "f2", [], "src", true⟩], 5, []⟩
        ⟨"cl", none, none, none⟩ 300010 (.error "boom")).2.cachedAnnouncements
        = some [⟨"B".data, "u", "OTHER", 1, "s2", "f2", [], "src", true⟩]
    ∧ (handler ⟨some [⟨"B".data, "u", "OTHER", 1, "s2", "f2", [], "src", true⟩], 5, []⟩
        ⟨"cl", none, none, none⟩ 300010 (.error "boom")).2.cacheTime = 5 :=
  c1_stale_cache_failure_returns_500
    ⟨some [⟨"B".data, "u", "OTHER", 1, "s2", "f2", [], "src", true⟩], 5, []⟩
    ⟨"cl", none, none, none⟩ 300010 "boom"
    [⟨"B".data, "u", "OTHER", 1, "s2", "f2", [], "src", true⟩]
    rfl (by decide) (by decide)

/-- Claim C4 (confirmed): with an empty cache, a failed refresh answers 500
and leaves the cache empty; and in general a request either leaves the cache
unchanged or replaces it wholesale with the freshly fetched list. -/
theorem c4_empty_cache_failure_and_atomicity :
    (∀ (ct : Int) (store : Store) (req : Request) (now : Int) (e : String),
      (checkRateLimit store req.clientId now).1.allowed = true →
      (handler ⟨none, ct, store⟩ req now (.error e)).1.status = 500
      ∧ (handler ⟨none, ct, store⟩ req now (.error e)).2.cachedAnnouncements = none)
    ∧ (∀ (s : ServerState) (req : Request) (now : Int)
          (fetch : Except String (List Ann)),
      (handler s req now fetch).2.cachedAnnouncements = s.cachedAnnouncements
      ∨ ∃ l, fetch = .ok l
          ∧ (handler s req now fetch).2.cachedAnnouncements = some l) := by
  constructor
  · intro ct store req now e hallowed
    simp [handler, hallowed]
  · intro s req now fetch
    by_cases hall : (checkRateLimit s.rateLimitStore req.clientId now).1.allowed = false
    · left
      simp [handler, hall]
    · by_cases hstale :
        (s.cachedAnnouncements.isNone || decide (now - s.cacheTime > CACHE_DURATION)) = true
      · rcases hfetch : fetch with e | l
        · left
          simp [handler, hall, hstale, hfetch]
        · right
          refine ⟨l, rfl, ?_⟩
          simp [handler, hall, hstale, hfetch]
      · left
        rcases hc : s.cachedAnnouncements with _ | v
        · rw [hc] at hstale
          simp at hstale
        · rw [hc] at hstale
          simp only [Option.isNone_some, Bool.false_or,
            decide_eq_false_iff_not] at hstale
          simp [handler, hall, hc, hstale]

/-- Concrete instance of `c4_empty_cache_failure_and_atomicity`. -/
theorem c4_empty_cache_failure_and_atomicity_witness :
    (handler ⟨none, 0, []⟩ ⟨"ip", none, none, none⟩ 5 (.error "down")).1.status = 500
    ∧ (handler ⟨none, 0, []⟩ ⟨"ip", none, none, none⟩ 5
        (.error "down")).2.cachedAnnouncements = none :=
  c4_empty_cache_failure_and_atomicity.1 0 [] ⟨"ip", none, none, none⟩ 5 "down"
    (by decide)

/-- Claim C6 counterexample: a request with the non-numeric `limit="abc"` is
answered 200 (with an empty list, because `parseInt` yields NaN and
`slice(0, NaN)` is empty), not a 400-class error, and the rate-limit store
has already been mutated by the request. -/
theorem c6_counterexample :
    (handler ⟨some [⟨"A".data, "t", "OTHER", 0, "s", "f", [], "src", false⟩], 100, []⟩
        ⟨"ip", none, none, some "abc"⟩ 200 (.error "unused")).1.status = 200
    ∧ (handler ⟨some [⟨"A".data, "t", "OTHER", 0, "s", "f", [], "src", false⟩], 100, []⟩
        ⟨"ip", none, none, some "abc"⟩ 200 (.error "unused")).1.announcements = []
    ∧ (handler ⟨some [⟨"A".data, "t", "OTHER", 0, "s", "f", [], "src", false⟩], 100, []⟩
        ⟨"ip", none, none, some "abc"⟩ 200 (.error "unused")).2.rateLimitStore ≠ [] := by
  refine ⟨rfl, rfl, by decide⟩

/-- Claim C6 (corrected): the handler performs no parameter validation.  A
request whose `limit` does not parse yields a 200 response with an empty
announcements list, and the rate limiter's record is created/incremented
before the parameters are ever examined (the store is updated exactly as for
a valid request). -/
theorem c6_invalid_params_not_rejected (s : ServerState) (req : Request)
    (now : Int) (fetch : Except String (List Ann)) (limitStr : String)
    (v : List Ann)
    (hlim : req.limit = some limitStr)
    (hbad : jsParseInt limitStr = none)
    (hcache : s.cachedAnnouncements = some v)
    (hfresh : ¬(now - s.cacheTime > CACHE_DURATION))
    (hallowed : (checkRateLimit s.rateLimitStore req.clientId now).1.allowed = true) :
    (handler s req now fetch).1.status = 200
    ∧ (handler s req now fetch).1.announcements = []
    ∧ (handler s req now fetch).2.rateLimitStore
        = (checkRateLimit s.rateLimitStore req.clientId now).2 := by
  simp [handler, hallowed, hcache, hfresh, applyFilters, applyLimit, hlim, hbad]

/-- Concrete instance of `c6_invalid_params_not_rejected`. -/
theorem c6_invalid_params_not_rejected_witness :
    (handler ⟨some [⟨"A".data, "t", "OTHER", 0, "s", "f", [], "src", false⟩], 7, []⟩
        ⟨"cl", none, none, some "ten"⟩ 9 (.error "unused")).1.status = 200
    ∧ (handler ⟨some [⟨"A".data, "t", "OTHER", 0, "s", "f", [], "src", false⟩], 7, []⟩
        ⟨"cl", none, none, some "ten"⟩ 9 (.error "unused")).1.announcements = []
    ∧ (handler ⟨some [⟨"A".data, "t", "OTHER", 0, "s", "f", [], "src", false⟩], 7, []⟩
        ⟨"cl", none, none, some "ten"⟩ 9 (.error "unused")).2.rateLimitStore
        = (checkRateLimit [] "cl" 9).2 :=
  c6_invalid_params_not_rejected
    ⟨some [⟨"A".data, "t", "OTHER", 0, "s", "f", [], "src", false⟩], 7, []⟩
    ⟨"cl", none, none, some "ten"⟩ 9 (.error "unused") "ten"
    [⟨"A".data, "t", "OTHER", 0, "s", "f", [], "src", false⟩]
    rfl (by decide) rfl (by decide) (by decide)

/-- Claim C8 counterexample: an announcement constructed at t=3,500,000 from
an item published at t=0 is stored with `isNew = true`; a read at
t=3,740,000 (cache still fresh) serves that stored value although the item is
then older than one hour — `isNew` is NOT recomputed at read time. -/
theorem c8_counterexample :
    (handler ⟨some [processAnnouncement 3500000 ⟨"t", [104], 0, "c", "src"⟩ "src"],
        3500000, []⟩ ⟨"ip", none, none, none⟩ 3740000 (.error "unused")).1.announcements
      = [processAnnouncement 3500000 ⟨"t", [104], 0, "c", "src"⟩ "src"]
    ∧ (processAnnouncement 3500000 ⟨"t", [104], 0, "c", "src"⟩ "src").isNew = true
    ∧ ¬((3740000 : Int) - (processAnnouncement 3500000 ⟨"t", [104], 0, "c", "src"⟩ "src").timestamp
          < NEW_WINDOW_MS) := by
  refine ⟨rfl, rfl, by decide⟩

/-- Claim C8 (corrected): `isNew` is computed once at construction time
(`Date.now()` during the refresh) as `now − timestamp < 1 h`, and the handler
serves announcements exactly as stored in the cache (every served
announcement is a member of the cached or freshly fetched list, fields
untouched), so a read does not recompute it. -/
theorem c8_isnew_fixed_at_construction :
    (∀ (now : Int) (raw : RawItem) (src : String),
      (processAnnouncement now raw src).isNew
        = decide (now - raw.pubDateMs < NEW_WINDOW_MS))
    ∧ (∀ (s : ServerState) (req : Request) (now : Int)
          (fetch : Except String (List Ann)),
      ∀ a ∈ (handler s req now fetch).1.announcements,
        a ∈ s.cachedAnnouncements.getD [] ∨ ∃ l, fetch = .ok l ∧ a ∈ l) := by
  constructor
  · intro now raw src
    rfl
  · intro s req now fetch a ha
    rcases handler_announcements_sublist s req now fetch with h | ⟨l, hl, h⟩
    · exact Or.inl (h.subset ha)
    · exact Or.inr ⟨l, hl, h.subset ha⟩

/-- Concrete instance of `c8_isnew_fixed_at_construction`. -/
theorem c8_isnew_fixed_at_construction_witness :
    (processAnnouncement 3000000 ⟨"w", [104], 0, "c", "s"⟩ "s").isNew
      = decide ((3000000 : Int) - 0 < NEW_WINDOW_MS)
    ∧ (processAnnouncement 3000000 ⟨"w", [104], 0, "c", "s"⟩ "s"
        ∈ (some [processAnnouncement 3000000 ⟨"w", [104], 0, "c", "s"⟩ "s"]).getD []
      ∨ ∃ l, (.error "unused" : Except String (List Ann)) = .ok l
          ∧ processAnnouncement 3000000 ⟨"w", [104], 0, "c", "s"⟩ "s" ∈ l) :=
  ⟨c8_isnew_fixed_at_construction.1 3000000 ⟨"w", [104], 0, "c", "s"⟩ "s",
   c8_isnew_fixed_at_construction.2
     ⟨some [processAnnouncement 3000000 ⟨"w", [104], 0, "c", "s"⟩ "s"], 3000000, []⟩
     ⟨"ip", none, none, none⟩ 3100000 (.error "unused")
     (processAnnouncement 3000000 ⟨"w", [104], 0, "c", "s"⟩ "s") (by decide)⟩

end AwsNews
